import Mathlib

set_option maxRecDepth 8000

/-!
Verification development for the page-XML rendering and hit-testing engine
of ocrd_browser (src/ocrd_browser/model/page_xml_renderer.py).

The renderer logic (polygon validation cascade, color lookup, operation
batching by depth, layered compositing order, region map construction and
point queries) is embedded as executable Lean definitions.  The external
geometry library (shapely) is abstracted as a record of functions `Geo`;
a simple concrete instance `intGeo` (axis-aligned integer geometry) is used
to evaluate the definitions on concrete inputs.
-/

/-- A polygon, as the ordered list of its exterior points in canvas pixel
space (the value produced by shapely's Polygon constructor). -/
structure Polygon where
  pts : List (Int × Int)
deriving DecidableEq

/-- Interface of the geometry library (shapely) as used by the renderer:
polygon construction (which may fail with an error message), validity,
validity diagnostics, emptiness, bounding-box minima, perimeter length and
point containment. -/
structure Geo where
  construct : List (Int × Int) → Except String Polygon
  is_valid : Polygon → Bool
  explain_validity : Polygon → String
  is_empty : Polygon → Bool
  boundsMinX : Polygon → Int
  boundsMinY : Polygon → Int
  length : Polygon → ℚ
  contains : Polygon → Int → Int → Bool

/-- The closed set of node kinds of the PAGE-XML tree handled by the
renderer (python classes PcGtsType, PageType, BorderType, PrintSpaceType,
region types, TextLineType, WordType, GlyphType, GraphemeType). -/
inductive RegionKind where
  | pcGts
  | page
  | border
  | printSpace
  | textRegion
  | imageRegion
  | tableRegion
  | mapRegion
  | textLine
  | word
  | glyph
  | grapheme
deriving DecidableEq

/-- The python class name of each node kind (`region.__class__.__name__`). -/
def RegionKind.className : RegionKind → String
  | .pcGts => "PcGtsType"
  | .page => "PageType"
  | .border => "BorderType"
  | .printSpace => "PrintSpaceType"
  | .textRegion => "TextRegionType"
  | .imageRegion => "ImageRegionType"
  | .tableRegion => "TableRegionType"
  | .mapRegion => "MapRegionType"
  | .textLine => "TextLineType"
  | .word => "WordType"
  | .glyph => "GlyphType"
  | .grapheme => "GraphemeType"

/-- One node of the document tree as the renderer sees it: its class,
optional subtype (the @type attribute), optional identifier, and the raw
point sequence that `coordinates_of_segment` yields for it in canvas
space. -/
structure Seg where
  cls : RegionKind
  subtype : Option String := none
  id : Option String := none
  pts : List (Int × Int) := []
deriving DecidableEq

/-- The built-in color table CLASSES of page_xml_renderer.py. -/
def CLASSES : List (String × String) :=
  [("", "FFFFFF00"),
   ("Glyph", "2E8B08FF"),
   ("Word", "B22222FF"),
   ("TextLine", "32CD32FF"),
   ("Border", "FFFFFFFF"),
   ("PrintSpace", "CCCCCCFF"),
   ("TableRegion", "8B4513FF"),
   ("AdvertRegion", "4682B4FF"),
   ("ChemRegion", "FF8C00FF"),
   ("MusicRegion", "9400D3FF"),
   ("MapRegion", "9ACDD2FF"),
   ("TextRegion", "0000FFFF"),
   ("TextRegion:paragraph", "0000FFFA"),
   ("TextRegion:heading", "0000FFF5"),
   ("TextRegion:caption", "0000FFF0"),
   ("TextRegion:header", "0000FFEB"),
   ("TextRegion:footer", "0000FFE6"),
   ("TextRegion:page-number", "0000FFE1"),
   ("TextRegion:drop-capital", "0000FFDC"),
   ("TextRegion:credit", "0000FFD7"),
   ("TextRegion:floating", "0000FFD2"),
   ("TextRegion:signature-mark", "0000FFCD"),
   ("TextRegion:catch-word", "0000FFC8"),
   ("TextRegion:marginalia", "0000FFC3"),
   ("TextRegion:footnote", "0000FFBE"),
   ("TextRegion:footnote-continued", "0000FFB9"),
   ("TextRegion:endnote", "0000FFB4"),
   ("TextRegion:TOC-entry", "0000FFAF"),
   ("TextRegion:list-label", "0000FFA5"),
   ("TextRegion:other", "0000FFA0"),
   ("ChartRegion", "800080FF"),
   ("ChartRegion:bar", "800080FA"),
   ("ChartRegion:line", "800080F5"),
   ("ChartRegion:pie", "800080F0"),
   ("ChartRegion:scatter", "800080EB"),
   ("ChartRegion:surface", "800080E6"),
   ("ChartRegion:other", "800080E1"),
   ("GraphicRegion", "008000FF"),
   ("GraphicRegion:logo", "008000FA"),
   ("GraphicRegion:letterhead", "008000F0"),
   ("GraphicRegion:decoration", "008000EB"),
   ("GraphicRegion:frame", "008000E6"),
   ("GraphicRegion:handwritten-annotation", "008000E1"),
   ("GraphicRegion:stamp", "008000DC"),
   ("GraphicRegion:signature", "008000D7"),
   ("GraphicRegion:barcode", "008000D2"),
   ("GraphicRegion:paper-grow", "008000CD"),
   ("GraphicRegion:punch-hole", "008000C8"),
   ("GraphicRegion:other", "008000C3"),
   ("ImageRegion", "00CED1FF"),
   ("LineDrawingRegion", "B8860BFF"),
   ("MathsRegion", "00BFFFFF"),
   ("NoiseRegion", "FF0000FF"),
   ("SeparatorRegion", "FF00FFFF"),
   ("UnknownRegion", "646464FF"),
   ("CustomRegion", "637C81FF")]

/-- Plain dict lookup (first binding of the key in the association list). -/
def dictLookup (d : List (String × String)) (k : String) : Option String :=
  match d.find? (fun e => e.fst == k) with
  | some e => some e.snd
  | none => none

/-- `defaultdict(lambda: 'FF0000FF')` item access: returns the stored value
when the key is present; otherwise returns the fallback color AND inserts
the binding (key, fallback) into the dict — python defaultdict mutates on
lookup of a missing key. -/
def ddGet (d : List (String × String)) (k : String) : String × List (String × String) :=
  match dictLookup d k with
  | some v => (v, d)
  | none => ("FF0000FF", d ++ [(k, "FF0000FF")])

/-- `self.colors` after PageXmlRenderer.__init__: an empty defaultdict
updated with `colors or CLASSES` (python or: None and the empty dict are
both falsy, so CLASSES is used in those cases). -/
def initColors (colorsArg : Option (List (String × String))) : List (String × String) :=
  match colorsArg with
  | none => CLASSES
  | some l => if l.isEmpty then CLASSES else l

/-- get_breadcrumbs: the chain of ancestors from the root down to the node,
with the node itself last.  The parent chain of the python objects is
represented by the ancestor list threaded through the tree walk. -/
def get_breadcrumbs (ancestors : List Seg) (region : Seg) : List Seg :=
  ancestors ++ [region]

/-- A PolygonOperation: the polygon, the source region (with its ancestor
chain, standing for the parent_object_ links) and the derived fill and
outline colors. -/
structure Operation where
  ancestors : List Seg
  region : Seg
  poly : Polygon
  fill : String
  outline : String
deriving DecidableEq

/-- Operation.depth: the length of the node's breadcrumb chain. -/
def Operation.depth (op : Operation) : Nat :=
  (get_breadcrumbs op.ancestors op.region).length

/-- The tag used in the failure log: class name with 'Type' removed, plus
the quoted id when the segment has one. -/
def logTag (segment : Seg) : String :=
  let tag := (RegionKind.className segment.cls).replace "Type" ""
  match segment.id with
  | some i => tag ++ " \"" ++ i ++ "\""
  | none => tag

/-- The log line 'Page "%s" %s %s' % (page_id, tag, reason). -/
def logMsg (page_id : String) (segment : Seg) (reason : String) : String :=
  "Page \"" ++ page_id ++ "\" " ++ logTag segment ++ " " ++ reason

/-- PageXmlRenderer.segment_poly: builds the polygon from the segment's
coordinates and validates it.  Returns (maybe-polygon, maybe-log-line).
Mirrors the python cascade exactly: a construction error (ValueError) is
caught, its message becomes the reason; otherwise invalidity, emptiness,
negative bounds and perimeter below 4 are checked in this order; a
non-empty reason is logged and no polygon is returned. -/
def segment_poly (G : Geo) (page_id : String) (segment : Seg) : Option Polygon × Option String :=
  match G.construct segment.pts with
  | Except.error err =>
      if err = "" then (none, none)
      else (none, some (logMsg page_id segment err))
  | Except.ok poly =>
      let reason : String :=
        if G.is_valid poly = false then G.explain_validity poly
        else if G.is_empty poly = true then "is empty"
        else if G.boundsMinX poly < 0 ∨ G.boundsMinY poly < 0 then "is negative"
        else if G.length poly < 4 then "has too few points"
        else ""
      if reason = "" then (some poly, none)
      else (none, some (logMsg page_id segment reason))

/-- PageXmlRenderer.plot_segment: looks up the color under the key
`region.__class__.__name__[:-4]` (the class name without the trailing
'Type') in the defaultdict of colors, and emits the operation with fill
'#'+color[:6]+'1E' and outline '#'+color[:6]+'96'.  Returns the operation
and the (possibly grown) color dict. -/
def plot_segment (colors : List (String × String)) (ancestors : List Seg) (region : Seg)
    (poly : Polygon) : Operation × List (String × String) :=
  let region_type := (RegionKind.className region.cls).dropRight 4
  let looked := ddGet colors region_type
  ({ ancestors := ancestors, region := region, poly := poly,
     fill := "#" ++ looked.fst.take 6 ++ "1E",
     outline := "#" ++ looked.fst.take 6 ++ "96" }, looked.snd)

/-- The renderer state threaded through the tree walk: the color dict, the
operations in emission order, and the error log. -/
structure RState where
  colors : List (String × String)
  ops : List Operation
  log : List String
deriving DecidableEq

/-- One render_type step on a leaf-like node: validate, then plot on
success or log on failure.  The boolean tells whether the node's polygon
validated (python: `if poly:`). -/
def render_seg (G : Geo) (page_id : String) (ancestors : List Seg) (st : RState)
    (segment : Seg) : RState × Bool :=
  match segment_poly G page_id segment with
  | (some poly, _) =>
      let plotted := plot_segment st.colors ancestors segment poly
      ({ colors := plotted.snd, ops := st.ops ++ [plotted.fst], log := st.log }, true)
  | (none, some msg) => ({ st with log := st.log ++ [msg] }, false)
  | (none, none) => (st, false)

/-- A Word node with its Glyph children. -/
structure WordT where
  seg : Seg
  glyphs : List Seg
deriving DecidableEq

/-- A TextLine node with its Word children. -/
structure LineT where
  seg : Seg
  words : List WordT
deriving DecidableEq

/-- A top-level region: a TextRegion with its lines, or any other region
kind (no traversed children). -/
inductive Region where
  | textRegion (seg : Seg) (lines : List LineT)
  | nonText (seg : Seg)
deriving DecidableEq

/-- A page: optional PrintSpace, optional Border, regions in reading
order. -/
structure PageT where
  printSpace : Option Seg := none
  border : Option Seg := none
  regions : List Region := []
deriving DecidableEq

/-- The inner loops of render_text_region for one Word: render the word,
then all its glyphs — the glyph loop runs whether or not the word's own
polygon validated. -/
def render_word (G : Geo) (page_id : String) (ancestors : List Seg) (st : RState)
    (w : WordT) : RState :=
  let st1 := (render_seg G page_id ancestors st w.seg).fst
  w.glyphs.foldl (fun s g => (render_seg G page_id (ancestors ++ [w.seg]) s g).fst) st1

/-- The loops of render_text_region for one TextLine: render the line,
then all its words (and their glyphs) — run whether or not the line's own
polygon validated. -/
def render_line (G : Geo) (page_id : String) (ancestors : List Seg) (st : RState)
    (l : LineT) : RState :=
  let st1 := (render_seg G page_id ancestors st l.seg).fst
  l.words.foldl (fun s w => render_word G page_id (ancestors ++ [l.seg]) s w) st1

/-- render_text_region: iterate over the text region's lines. -/
def render_text_region (G : Geo) (page_id : String) (ancestors : List Seg) (st : RState)
    (lines : List LineT) : RState :=
  lines.foldl (fun s l => render_line G page_id ancestors s l) st

/-- render_type on a top-level region: validate and plot; only when the
region's own polygon validated AND the region is a TextRegion does the walk
descend into its lines. -/
def render_region (G : Geo) (page_id : String) (ancestors : List Seg) (st : RState)
    (r : Region) : RState :=
  match r with
  | .nonText seg => (render_seg G page_id ancestors st seg).fst
  | .textRegion seg lines =>
      let plotted := render_seg G page_id ancestors st seg
      if plotted.snd then
        render_text_region G page_id (ancestors ++ [seg]) plotted.fst lines
      else plotted.fst

/-- The PcGts document root node. -/
def pcGtsSeg : Seg := { cls := RegionKind.pcGts }

/-- The Page node (child of PcGts). -/
def pageSeg : Seg := { cls := RegionKind.page }

/-- Ancestor chain of every node rendered directly under the page. -/
def topAnc : List Seg := [pcGtsSeg, pageSeg]

/-- The depth value the Page node itself would get (breadcrumbs
[PcGts, Page]). -/
def pageDepth : Nat := (get_breadcrumbs [pcGtsSeg] pageSeg).length

/-- PageXmlRenderer.render_all: print space, then border, then all regions
in reading order. -/
def render_all (G : Geo) (page_id : String) (colorsArg : Option (List (String × String)))
    (page : PageT) : RState :=
  let st0 : RState := { colors := initColors colorsArg, ops := [], log := [] }
  let st1 := match page.printSpace with
    | some s => (render_seg G page_id topAnc st0 s).fst
    | none => st0
  let st2 := match page.border with
    | some s => (render_seg G page_id topAnc st1 s).fst
    | none => st1
  page.regions.foldl (fun s r => render_region G page_id topAnc s r) st2

/-- Insertion into a descending-sorted list of depths. -/
def insertDesc (x : Nat) : List Nat → List Nat
  | [] => [x]
  | y :: ys => if y ≤ x then x :: y :: ys else y :: insertDesc x ys

/-- `sorted(keys, reverse=True)`: the depth keys in descending order. -/
def sortDesc (l : List Nat) : List Nat := l.foldr insertDesc []

/-- The distinct depths of the batched operations, descending — the layer
keys of Operations.layers(). -/
def depthKeys (ops : List Operation) : List Nat :=
  sortDesc ((ops.map Operation.depth).dedup)

/-- Grouping of Operations.paint: for each key, the operations of that
depth in emission order (the defaultdict(list) grouping). -/
def gather (ops : List Operation) : List Nat → List Operation
  | [] => []
  | d :: ds => ops.filter (fun o => o.depth == d) ++ gather ops ds

/-- The operations in the order Operations.paint processes them: layer by
layer, deepest layer first. -/
def orderedOps (ops : List Operation) : List Operation :=
  gather ops (depthKeys ops)

/-- The RegionMap built during Operations.paint: every painted operation
appends (polygon, region), in paint order. -/
def regionMapOf (ops : List Operation) : List (Polygon × Seg) :=
  (orderedOps ops).map (fun o => (o.poly, o.region))

/-- `ignore_regions or [BorderType, PrintSpaceType]`: python or-semantics —
None and the empty list are falsy, so both select the default. -/
def resolveIgnore (ignore_regions : Option (List RegionKind)) : List RegionKind :=
  match ignore_regions with
  | none => [RegionKind.border, RegionKind.printSpace]
  | some l => if l.isEmpty then [RegionKind.border, RegionKind.printSpace] else l

/-- RegionMap.find_region: first recorded (polygon, region) whose polygon
contains the point and whose region class is not ignored. -/
def find_region (G : Geo) (region_nodes : List (Polygon × Seg)) (x y : Int)
    (ignore_regions : Option (List RegionKind)) : Option Seg :=
  let ig := resolveIgnore ignore_regions
  match region_nodes.find? (fun e => G.contains e.fst x y && !(decide (e.snd.cls ∈ ig))) with
  | some e => some e.snd
  | none => none

/-- Taxicab distance between two points (used by the concrete geometry). -/
def edgeLen (a b : Int × Int) : Int :=
  ((a.fst - b.fst).natAbs : Int) + ((a.snd - b.snd).natAbs : Int)

/-- Perimeter accumulator over the closed ring. -/
def perimAux (p0 : Int × Int) : (Int × Int) → List (Int × Int) → Int
  | prev, [] => edgeLen prev p0
  | prev, q :: qs => edgeLen prev q + perimAux p0 q qs

/-- Taxicab perimeter of the closed ring through the points. -/
def taxiPerim : List (Int × Int) → Int
  | [] => 0
  | p :: ps => perimAux p p ps

/-- Minimum of f over the points (0 for the empty list). -/
def listMin (f : Int × Int → Int) : List (Int × Int) → Int
  | [] => 0
  | p :: ps => ps.foldl (fun m q => min m (f q)) (f p)

/-- Maximum of f over the points (0 for the empty list). -/
def listMax (f : Int × Int → Int) : List (Int × Int) → Int
  | [] => 0
  | p :: ps => ps.foldl (fun m q => max m (f q)) (f p)

/-- A concrete executable geometry for evaluating the embedding:
construction needs at least 3 points, every constructed polygon is valid,
perimeter is the taxicab perimeter (which agrees with the Euclidean one on
the axis-aligned rectangles used below), and containment is strict
bounding-box membership (which is exact polygon interior membership for
axis-aligned rectangles). -/
def intGeo : Geo where
  construct := fun pts =>
    if pts.length < 3 then Except.error "A LinearRing must have at least 3 coordinate tuples"
    else Except.ok { pts := pts }
  is_valid := fun _ => true
  explain_validity := fun _ => "Valid Geometry"
  is_empty := fun p => p.pts.isEmpty
  boundsMinX := fun p => listMin (fun q => q.fst) p.pts
  boundsMinY := fun p => listMin (fun q => q.snd) p.pts
  length := fun p => ((taxiPerim p.pts : Int) : ℚ)
  contains := fun p x y =>
    decide (listMin (fun q => q.fst) p.pts < x) && decide (x < listMax (fun q => q.fst) p.pts)
      && decide (listMin (fun q => q.snd) p.pts < y) && decide (y < listMax (fun q => q.snd) p.pts)

/-- Projection of an operation to its traversal identity (ancestors and
node). -/
def opProj (o : Operation) : List Seg × Seg := (o.ancestors, o.region)

/-- The full traversal sequence of one Word subtree (independent of any
validation outcome). -/
def traverseWord (ancestors : List Seg) (w : WordT) : List (List Seg × Seg) :=
  (ancestors, w.seg) :: w.glyphs.map (fun g => (ancestors ++ [w.seg], g))

/-- The full traversal sequence of a list of Words. -/
def traverseWords (ancestors : List Seg) : List WordT → List (List Seg × Seg)
  | [] => []
  | w :: ws => traverseWord ancestors w ++ traverseWords ancestors ws

/-- The full traversal sequence of one TextLine subtree. -/
def traverseLine (ancestors : List Seg) (l : LineT) : List (List Seg × Seg) :=
  (ancestors, l.seg) :: traverseWords (ancestors ++ [l.seg]) l.words

/-- The full traversal sequence of a list of TextLines. -/
def traverseLines (ancestors : List Seg) : List LineT → List (List Seg × Seg)
  | [] => []
  | l :: ls => traverseLine ancestors l ++ traverseLines ancestors ls

/-- The full traversal sequence of one region subtree. -/
def traverseRegion (ancestors : List Seg) : Region → List (List Seg × Seg)
  | .nonText seg => [(ancestors, seg)]
  | .textRegion seg lines => (ancestors, seg) :: traverseLines (ancestors ++ [seg]) lines

/-- The full traversal sequence of a list of regions. -/
def traverseRegions (ancestors : List Seg) : List Region → List (List Seg × Seg)
  | [] => []
  | r :: rs => traverseRegion ancestors r ++ traverseRegions ancestors rs

/-- The full traversal sequence of a page: print space, border, regions in
reading order — the visit order of render_all when nothing fails. -/
def traversePage (page : PageT) : List (List Seg × Seg) :=
  (match page.printSpace with
    | some s => [(topAnc, s)]
    | none => []) ++
  (match page.border with
    | some s => [(topAnc, s)]
    | none => []) ++
  traverseRegions topAnc page.regions


/-- Relation between a color dict before and after some lookups: every
existing binding is preserved, and any new binding has the fallback
value. -/
def ColorsExt (d d2 : List (String × String)) : Prop :=
  ∀ k, (∀ v, dictLookup d k = some v → dictLookup d2 k = some v)
    ∧ (dictLookup d2 k = dictLookup d k ∨ dictLookup d2 k = some "FF0000FF")

/-- The corner points of an axis-aligned rectangle. -/
def rectPts (x1 y1 x2 y2 : Int) : List (Int × Int) :=
  [(x1, y1), (x2, y1), (x2, y2), (x1, y2)]

/-- C1 input: a custom color table where the subtype-qualified key has a
different RGB part than the plain type key. -/
def c1Table : List (String × String) :=
  [("TextRegion", "0000FFFF"), ("TextRegion:paragraph", "ABCDEFFF")]

/-- C1 input: a TextRegion with subtype paragraph and a valid polygon. -/
def c1Seg : Seg :=
  { cls := RegionKind.textRegion, subtype := some "paragraph", id := some "r0",
    pts := rectPts 10 10 50 50 }

/-- C1 input page. -/
def c1Page : PageT := { regions := [Region.textRegion c1Seg []] }

/-- C2 input: a TextRegion whose polygon has negative coordinates, so its
validation fails. -/
def c2BadSeg : Seg :=
  { cls := RegionKind.textRegion, id := some "rbad", pts := rectPts (-10) (-10) 50 50 }

/-- C2 input: a TextLine with a valid polygon. -/
def c2LineSeg : Seg :=
  { cls := RegionKind.textLine, id := some "l1", pts := rectPts 12 12 48 20 }

/-- C2 input page: the valid line sits inside the invalid region. -/
def c2Page : PageT :=
  { regions := [Region.textRegion c2BadSeg [{ seg := c2LineSeg, words := [] }]] }

/-- C2 witness input: a Word whose own polygon is invalid (negative). -/
def c2GlyphSeg : Seg :=
  { cls := RegionKind.glyph, id := some "g1", pts := rectPts 13 13 20 19 }

/-- C2 witness input: invalid word containing a valid glyph. -/
def c2Word : WordT :=
  { seg := { cls := RegionKind.word, id := some "w1", pts := rectPts (-5) (-5) 20 20 },
    glyphs := [c2GlyphSeg] }

/-- A concrete renderer state for witnesses. -/
def cSt : RState := { colors := CLASSES, ops := [], log := [] }

/-- C3 inputs: three nested regions (region, line inside it, word inside
that). -/
def c3aSeg : Seg := { cls := RegionKind.textRegion, id := some "a", pts := rectPts 0 0 100 100 }

/-- C3 inputs: the middle (line) node. -/
def c3bSeg : Seg := { cls := RegionKind.textLine, id := some "b", pts := rectPts 10 10 50 50 }

/-- C3 inputs: the innermost (word) node. -/
def c3cSeg : Seg := { cls := RegionKind.word, id := some "c", pts := rectPts 12 12 48 48 }

/-- C3 outer operation (depth 3). -/
def c3opA : Operation :=
  { ancestors := topAnc, region := c3aSeg, poly := { pts := c3aSeg.pts }, fill := "", outline := "" }

/-- C3 middle operation (depth 4). -/
def c3opB : Operation :=
  { ancestors := topAnc ++ [c3aSeg], region := c3bSeg, poly := { pts := c3bSeg.pts },
    fill := "", outline := "" }

/-- C3 inner operation (depth 5). -/
def c3opC : Operation :=
  { ancestors := topAnc ++ [c3aSeg, c3bSeg], region := c3cSeg, poly := { pts := c3cSeg.pts },
    fill := "", outline := "" }

/-- C3 emitted operations. -/
def c3ops : List Operation := [c3opA, c3opB, c3opC]

/-- C5 scenario: the Border polygon. -/
def c5Border : Seg := { cls := RegionKind.border, pts := rectPts 0 0 100 100 }

/-- C5 scenario: the TextRegion polygon. -/
def c5Region : Seg := { cls := RegionKind.textRegion, id := some "r1", pts := rectPts 10 10 50 50 }

/-- C5 scenario: the TextLine polygon. -/
def c5Line : Seg := { cls := RegionKind.textLine, id := some "l1", pts := rectPts 12 12 48 20 }

/-- C5 scenario page. -/
def c5Page : PageT :=
  { border := some c5Border,
    regions := [Region.textRegion c5Region [{ seg := c5Line, words := [] }]] }

/-- C6 witness input: a region with a negative coordinate. -/
def c6seg : Seg :=
  { cls := RegionKind.textRegion, id := some "neg", pts := rectPts (-10) (-10) 50 50 }

/-- C7 witness input: a Border region entry. -/
def c7Border : Seg := { cls := RegionKind.border, pts := rectPts 0 0 100 100 }

/-- C7 witness region map: only the Border contains the probe point. -/
def c7Map : List (Polygon × Seg) := [({ pts := rectPts 0 0 100 100 }, c7Border)]

/-- C8 witness input region. -/
def c8Seg : Seg := { cls := RegionKind.textRegion, id := some "r8", pts := rectPts 10 10 50 50 }

/-- C9 input: a custom table with no entry for ImageRegion. -/
def c9Table : List (String × String) := [("Border", "FFFFFFFF")]

/-- C9 input: a valid ImageRegion (absent from the custom table). -/
def c9Img : Seg := { cls := RegionKind.imageRegion, id := some "i1", pts := rectPts 10 10 50 50 }

/-- C9 input page. -/
def c9Page : PageT := { regions := [Region.nonText c9Img] }

theorem mem_insertDesc {a x : Nat} {l : List Nat} :
    a ∈ insertDesc x l ↔ a = x ∨ a ∈ l := by
  induction l with
  | nil => simp [insertDesc]
  | cons y ys ih =>
      by_cases h : y ≤ x
      · simp [insertDesc, h]
      · simp [insertDesc, h, ih]
        tauto

theorem insertDesc_perm (x : Nat) (l : List Nat) : (insertDesc x l).Perm (x :: l) := by
  induction l with
  | nil => exact List.Perm.refl _
  | cons y ys ih =>
      by_cases h : y ≤ x
      · simp [insertDesc, h]
      · simp only [insertDesc, h, if_false]
        exact (ih.cons y).trans (List.Perm.swap x y ys)

theorem sortDesc_perm (l : List Nat) : (sortDesc l).Perm l := by
  induction l with
  | nil => exact List.Perm.refl _
  | cons a as ih =>
      have h1 : sortDesc (a :: as) = insertDesc a (sortDesc as) := rfl
      rw [h1]
      exact (insertDesc_perm a (sortDesc as)).trans (ih.cons a)

theorem pairwise_ge_insertDesc {x : Nat} {l : List Nat}
    (h : l.Pairwise (fun a b => b ≤ a)) :
    (insertDesc x l).Pairwise (fun a b => b ≤ a) := by
  induction l with
  | nil => simp [insertDesc]
  | cons y ys ih =>
      rcases List.pairwise_cons.mp h with ⟨hy, hys⟩
      by_cases hle : y ≤ x
      · simp only [insertDesc, hle, if_true]
        refine List.pairwise_cons.mpr ⟨?_, h⟩
        intro b hb
        rcases List.mem_cons.mp hb with hb | hb
        · omega
        · have := hy b hb
          omega
      · simp only [insertDesc, hle, if_false]
        refine List.pairwise_cons.mpr ⟨?_, ih hys⟩
        intro b hb
        rcases mem_insertDesc.mp hb with hb | hb
        · omega
        · exact hy b hb

theorem pairwise_ge_sortDesc (l : List Nat) :
    (sortDesc l).Pairwise (fun a b => b ≤ a) := by
  induction l with
  | nil => simp [sortDesc]
  | cons a as ih => exact pairwise_ge_insertDesc ih

theorem pairwise_gt_of_ge_of_nodup :
    ∀ {l : List Nat}, l.Pairwise (fun a b => b ≤ a) → l.Nodup →
      l.Pairwise (fun a b => b < a) := by
  intro l hge hnd
  induction l with
  | nil => exact List.Pairwise.nil
  | cons a as ih =>
      rcases List.pairwise_cons.mp hge with ⟨ha, has⟩
      rcases List.pairwise_cons.mp hnd with ⟨hne, hnds⟩
      refine List.pairwise_cons.mpr ⟨?_, ih has hnds⟩
      intro b hb
      have h1 := ha b hb
      have h2 := hne b hb
      omega

theorem mem_depthKeys {d : Nat} {ops : List Operation} :
    d ∈ depthKeys ops ↔ d ∈ ops.map Operation.depth := by
  unfold depthKeys
  rw [(sortDesc_perm _).mem_iff, List.mem_dedup]

theorem nodup_depthKeys (ops : List Operation) : (depthKeys ops).Nodup :=
  ((sortDesc_perm _).nodup_iff).mpr (List.nodup_dedup _)

theorem pairwise_gt_depthKeys (ops : List Operation) :
    (depthKeys ops).Pairwise (fun a b => b < a) :=
  pairwise_gt_of_ge_of_nodup (pairwise_ge_sortDesc _) (nodup_depthKeys ops)

theorem mem_gather {o : Operation} {ops : List Operation} :
    ∀ {ks : List Nat}, o ∈ gather ops ks ↔ o.depth ∈ ks ∧ o ∈ ops := by
  intro ks
  induction ks with
  | nil => simp [gather]
  | cons k ks ih =>
      simp only [gather, List.mem_append, ih, List.mem_filter, List.mem_cons, beq_iff_eq]
      constructor
      · rintro (⟨h1, h2⟩ | ⟨h1, h2⟩)
        · exact ⟨Or.inl h2, h1⟩
        · exact ⟨Or.inr h1, h2⟩
      · rintro ⟨h1 | h1, h2⟩
        · exact Or.inl ⟨h2, h1⟩
        · exact Or.inr ⟨h1, h2⟩

theorem pairwise_of_const_depth {k : Nat} :
    ∀ {l : List Operation}, (∀ a ∈ l, a.depth = k) →
      l.Pairwise (fun a b => b.depth ≤ a.depth) := by
  intro l h
  induction l with
  | nil => exact List.Pairwise.nil
  | cons a as ih =>
      refine List.pairwise_cons.mpr ⟨?_, ih (fun b hb => h b (List.mem_cons_of_mem a hb))⟩
      intro b hb
      have h1 := h a (List.mem_cons_self a as)
      have h2 := h b (List.mem_cons_of_mem a hb)
      omega

theorem pairwise_gather {ops : List Operation} :
    ∀ {ks : List Nat}, ks.Pairwise (fun a b => b < a) →
      (gather ops ks).Pairwise (fun a b => b.depth ≤ a.depth) := by
  intro ks h
  induction ks with
  | nil => exact List.Pairwise.nil
  | cons k ks ih =>
      rcases List.pairwise_cons.mp h with ⟨hk, hks⟩
      refine List.pairwise_append.mpr ⟨?_, ih hks, ?_⟩
      · refine pairwise_of_const_depth (k := k) ?_
        intro a ha
        exact beq_iff_eq.mp (List.mem_filter.mp ha).2
      · intro a ha b hb
        have h1 : a.depth = k := by
          have := (List.mem_filter.mp ha).2
          exact beq_iff_eq.mp this
        have h2 : b.depth ∈ ks := (mem_gather.mp hb).1
        have := hk _ h2
        omega

theorem filter_gather {ops : List Operation} {d : Nat} :
    ∀ {ks : List Nat}, ks.Nodup →
      (gather ops ks).filter (fun o => o.depth == d) =
        if d ∈ ks then ops.filter (fun o => o.depth == d) else [] := by
  intro ks hnd
  induction ks with
  | nil => simp [gather]
  | cons k ks ih =>
      rcases List.pairwise_cons.mp hnd with ⟨hk, hks⟩
      rw [gather, List.filter_append, ih hks]
      by_cases hd : d = k
      · subst hd
        have h1 : d ∉ ks := fun hmem => hk d hmem rfl
        rw [if_neg h1, if_pos (List.mem_cons_self d ks)]
        rw [List.filter_eq_self.mpr (fun a ha => (List.mem_filter.mp ha).2)]
        simp
      · have h2 : (List.filter (fun o => o.depth == d) (List.filter (fun o => o.depth == k) ops)) = [] := by
          rw [List.filter_eq_nil]
          intro a ha
          have h3 := beq_iff_eq.mp (List.mem_filter.mp ha).2
          simp only [beq_iff_eq]
          omega
        rw [h2]
        by_cases h4 : d ∈ ks
        · rw [if_pos h4, if_pos (List.mem_cons_of_mem k h4)]
          simp
        · rw [if_neg h4, if_neg (by simp [List.mem_cons, hd, h4])]
          simp

theorem mem_orderedOps {o : Operation} {ops : List Operation} :
    o ∈ orderedOps ops ↔ o ∈ ops := by
  unfold orderedOps
  rw [mem_gather]
  constructor
  · exact fun h => h.2
  · intro h
    refine ⟨?_, h⟩
    exact mem_depthKeys.mpr (List.mem_map.mpr ⟨o, h, rfl⟩)

theorem pairwise_orderedOps (ops : List Operation) :
    (orderedOps ops).Pairwise (fun a b => b.depth ≤ a.depth) :=
  pairwise_gather (pairwise_gt_depthKeys ops)

theorem filter_orderedOps (ops : List Operation) (d : Nat) :
    (orderedOps ops).filter (fun o => o.depth == d) =
      ops.filter (fun o => o.depth == d) := by
  unfold orderedOps
  rw [filter_gather (nodup_depthKeys ops)]
  by_cases h : d ∈ depthKeys ops
  · rw [if_pos h]
  · rw [if_neg h]
    symm
    rw [List.filter_eq_nil]
    intro a ha
    simp only [beq_iff_eq]
    intro hda
    exact h (mem_depthKeys.mpr (List.mem_map.mpr ⟨a, ha, hda⟩))

theorem render_seg_fail_ops {G : Geo} {page_id : String} {ancestors : List Seg} {st : RState}
    {segment : Seg} (h : (segment_poly G page_id segment).fst = none) :
    (render_seg G page_id ancestors st segment).fst.ops = st.ops
      ∧ (render_seg G page_id ancestors st segment).snd = false := by
  cases hsp : segment_poly G page_id segment with
  | mk fst snd =>
      rw [hsp] at h
      simp only at h
      subst h
      cases snd with
      | some msg => simp [render_seg, hsp]
      | none => simp [render_seg, hsp]

theorem render_seg_success_ops {G : Geo} {page_id : String} {ancestors : List Seg} {st : RState}
    {segment : Seg} {p : Polygon} (h : (segment_poly G page_id segment).fst = some p) :
    (render_seg G page_id ancestors st segment).fst.ops =
      st.ops ++ [(plot_segment st.colors ancestors segment p).fst]
      ∧ (render_seg G page_id ancestors st segment).snd = true := by
  cases hsp : segment_poly G page_id segment with
  | mk fst snd =>
      rw [hsp] at h
      simp only at h
      subst h
      simp [render_seg, hsp]

theorem render_seg_ops (G : Geo) (page_id : String) (ancestors : List Seg) (st : RState)
    (segment : Seg) :
    ∃ new, (render_seg G page_id ancestors st segment).fst.ops = st.ops ++ new
      ∧ (new.map opProj).Sublist [(ancestors, segment)] := by
  cases h : (segment_poly G page_id segment).fst with
  | none =>
      exact ⟨[], by simp [(render_seg_fail_ops h).1], by simp⟩
  | some p =>
      refine ⟨[(plot_segment st.colors ancestors segment p).fst], (render_seg_success_ops h).1, ?_⟩
      simp [opProj, plot_segment]

theorem render_word_ops (G : Geo) (page_id : String) (ancestors : List Seg) (st : RState)
    (w : WordT) :
    ∃ new, (render_word G page_id ancestors st w).ops = st.ops ++ new
      ∧ (new.map opProj).Sublist (traverseWord ancestors w) := by
  unfold render_word
  obtain ⟨n1, h1, hs1⟩ := render_seg_ops G page_id ancestors st w.seg
  have hglyphs : ∀ (gs : List Seg) (s : RState),
      ∃ new, (gs.foldl (fun s g => (render_seg G page_id (ancestors ++ [w.seg]) s g).fst) s).ops
          = s.ops ++ new
        ∧ (new.map opProj).Sublist (gs.map (fun g => (ancestors ++ [w.seg], g))) := by
    intro gs
    induction gs with
    | nil => exact fun s => ⟨[], by simp, by simp⟩
    | cons g gs ih =>
        intro s
        obtain ⟨m1, hm1, hsm1⟩ := render_seg_ops G page_id (ancestors ++ [w.seg]) s g
        obtain ⟨m2, hm2, hsm2⟩ := ih (render_seg G page_id (ancestors ++ [w.seg]) s g).fst
        refine ⟨m1 ++ m2, ?_, ?_⟩
        · simp only [List.foldl_cons, hm2, hm1, List.append_assoc]
        · simp only [List.map_append, List.map_cons]
          exact List.Sublist.append hsm1 hsm2
  obtain ⟨n2, h2, hs2⟩ := hglyphs w.glyphs (render_seg G page_id ancestors st w.seg).fst
  refine ⟨n1 ++ n2, ?_, ?_⟩
  · rw [h2, h1, List.append_assoc]
  · rw [List.map_append]
    unfold traverseWord
    have : (ancestors, w.seg) :: w.glyphs.map (fun g => (ancestors ++ [w.seg], g))
        = [(ancestors, w.seg)] ++ w.glyphs.map (fun g => (ancestors ++ [w.seg], g)) := rfl
    rw [this]
    exact List.Sublist.append hs1 hs2

theorem render_line_ops (G : Geo) (page_id : String) (ancestors : List Seg) (st : RState)
    (l : LineT) :
    ∃ new, (render_line G page_id ancestors st l).ops = st.ops ++ new
      ∧ (new.map opProj).Sublist (traverseLine ancestors l) := by
  unfold render_line
  obtain ⟨n1, h1, hs1⟩ := render_seg_ops G page_id ancestors st l.seg
  have hwords : ∀ (ws : List WordT) (s : RState),
      ∃ new, (ws.foldl (fun s w => render_word G page_id (ancestors ++ [l.seg]) s w) s).ops
          = s.ops ++ new
        ∧ (new.map opProj).Sublist (traverseWords (ancestors ++ [l.seg]) ws) := by
    intro ws
    induction ws with
    | nil => exact fun s => ⟨[], by simp, by simp [traverseWords]⟩
    | cons w ws ih =>
        intro s
        obtain ⟨m1, hm1, hsm1⟩ := render_word_ops G page_id (ancestors ++ [l.seg]) s w
        obtain ⟨m2, hm2, hsm2⟩ := ih (render_word G page_id (ancestors ++ [l.seg]) s w)
        refine ⟨m1 ++ m2, ?_, ?_⟩
        · simp only [List.foldl_cons, hm2, hm1, List.append_assoc]
        · rw [List.map_append]
          exact List.Sublist.append hsm1 hsm2
  obtain ⟨n2, h2, hs2⟩ := hwords l.words (render_seg G page_id ancestors st l.seg).fst
  refine ⟨n1 ++ n2, ?_, ?_⟩
  · rw [h2, h1, List.append_assoc]
  · rw [List.map_append]
    unfold traverseLine
    have : (ancestors, l.seg) :: traverseWords (ancestors ++ [l.seg]) l.words
        = [(ancestors, l.seg)] ++ traverseWords (ancestors ++ [l.seg]) l.words := rfl
    rw [this]
    exact List.Sublist.append hs1 hs2

theorem render_text_region_ops (G : Geo) (page_id : String) (ancestors : List Seg)
    (st : RState) (lines : List LineT) :
    ∃ new, (render_text_region G page_id ancestors st lines).ops = st.ops ++ new
      ∧ (new.map opProj).Sublist (traverseLines ancestors lines) := by
  unfold render_text_region
  induction lines generalizing st with
  | nil => exact ⟨[], by simp, by simp [traverseLines]⟩
  | cons l ls ih =>
      obtain ⟨m1, hm1, hsm1⟩ := render_line_ops G page_id ancestors st l
      obtain ⟨m2, hm2, hsm2⟩ := ih (render_line G page_id ancestors st l)
      refine ⟨m1 ++ m2, ?_, ?_⟩
      · simp only [List.foldl_cons, hm2, hm1, List.append_assoc]
      · rw [List.map_append]
        exact List.Sublist.append hsm1 hsm2

theorem render_region_ops (G : Geo) (page_id : String) (ancestors : List Seg) (st : RState)
    (r : Region) :
    ∃ new, (render_region G page_id ancestors st r).ops = st.ops ++ new
      ∧ (new.map opProj).Sublist (traverseRegion ancestors r) := by
  cases r with
  | nonText seg =>
      obtain ⟨n, h, hs⟩ := render_seg_ops G page_id ancestors st seg
      exact ⟨n, h, by simpa [traverseRegion] using hs⟩
  | textRegion seg lines =>
      simp only [render_region]
      obtain ⟨n1, h1, hs1⟩ := render_seg_ops G page_id ancestors st seg
      by_cases hok : (render_seg G page_id ancestors st seg).snd = true
      · rw [if_pos hok]
        obtain ⟨n2, h2, hs2⟩ :=
          render_text_region_ops G page_id (ancestors ++ [seg])
            (render_seg G page_id ancestors st seg).fst lines
        refine ⟨n1 ++ n2, ?_, ?_⟩
        · rw [h2, h1, List.append_assoc]
        · rw [List.map_append]
          simp only [traverseRegion]
          have : (ancestors, seg) :: traverseLines (ancestors ++ [seg]) lines
              = [(ancestors, seg)] ++ traverseLines (ancestors ++ [seg]) lines := rfl
          rw [this]
          exact List.Sublist.append hs1 hs2
      · rw [if_neg hok]
        refine ⟨n1, h1, ?_⟩
        simp only [traverseRegion]
        exact hs1.trans (by simp)

theorem render_all_ops (G : Geo) (page_id : String)
    (colorsArg : Option (List (String × String))) (page : PageT) :
    ((render_all G page_id colorsArg page).ops.map opProj).Sublist (traversePage page) := by
  unfold render_all
  have hregions : ∀ (rs : List Region) (s : RState),
      ∃ new, (rs.foldl (fun s r => render_region G page_id topAnc s r) s).ops = s.ops ++ new
        ∧ (new.map opProj).Sublist (traverseRegions topAnc rs) := by
    intro rs
    induction rs with
    | nil => exact fun s => ⟨[], by simp, by simp [traverseRegions]⟩
    | cons r rs ih =>
        intro s
        obtain ⟨m1, hm1, hsm1⟩ := render_region_ops G page_id topAnc s r
        obtain ⟨m2, hm2, hsm2⟩ := ih (render_region G page_id topAnc s r)
        refine ⟨m1 ++ m2, ?_, ?_⟩
        · simp only [List.foldl_cons, hm2, hm1, List.append_assoc]
        · rw [List.map_append]
          exact List.Sublist.append hsm1 hsm2
  have hps : ∀ (o : Option Seg) (s : RState),
      ∃ new, (match o with
          | some x => (render_seg G page_id topAnc s x).fst
          | none => s).ops = s.ops ++ new
        ∧ (new.map opProj).Sublist (match o with
          | some x => [(topAnc, x)]
          | none => []) := by
    intro o s
    cases o with
    | none => exact ⟨[], by simp, by simp⟩
    | some x => exact render_seg_ops G page_id topAnc s x
  obtain ⟨n1, h1, hs1⟩ := hps page.printSpace { colors := initColors colorsArg, ops := [], log := [] }
  obtain ⟨n2, h2, hs2⟩ := hps page.border _
  obtain ⟨n3, h3, hs3⟩ := hregions page.regions _
  rw [h3, h2, h1]
  simp only [List.nil_append, List.map_append]
  unfold traversePage
  exact List.Sublist.append (List.Sublist.append hs1 hs2) hs3

theorem find?_map_pair (l : List Operation) (q : Polygon × Seg → Bool) :
    (l.map (fun o => (o.poly, o.region))).find? q =
      (l.find? (fun o => q (o.poly, o.region))).map (fun o => (o.poly, o.region)) := by
  induction l with
  | nil => rfl
  | cons a l ih =>
      by_cases h : q (a.poly, a.region) = true
      · simp [List.find?_cons, h]
      · simp [List.find?_cons, h, ih]

theorem find?_some_of_mem {α : Type} {p : α → Bool} :
    ∀ {l : List α} {b : α}, b ∈ l → p b = true → ∃ x, l.find? p = some x := by
  intro l
  induction l with
  | nil => intro b hb; simp at hb
  | cons a l ih =>
      intro b hb hpb
      by_cases hpa : p a = true
      · exact ⟨a, List.find?_cons_of_pos _ hpa⟩
      · rcases List.mem_cons.mp hb with rfl | hb
        · rw [hpb] at hpa
          exact absurd rfl hpa
        · obtain ⟨x, hx⟩ := ih hb hpb
          exact ⟨x, by rw [List.find?_cons_of_neg _ hpa, hx]⟩

theorem find?_depth_ge {p : Operation → Bool} :
    ∀ {l : List Operation}, l.Pairwise (fun a b => b.depth ≤ a.depth) →
      ∀ {x b : Operation}, l.find? p = some x → b ∈ l → p b = true → b.depth ≤ x.depth := by
  intro l
  induction l with
  | nil =>
      intro _ x b hf
      simp at hf
  | cons a l ih =>
      intro h x b hf hb hpb
      rcases List.pairwise_cons.mp h with ⟨ha, hl⟩
      by_cases hpa : p a = true
      · rw [List.find?_cons_of_pos _ hpa] at hf
        cases hf
        rcases List.mem_cons.mp hb with rfl | hb
        · exact Nat.le_refl _
        · exact ha b hb
      · rw [List.find?_cons_of_neg _ hpa] at hf
        rcases List.mem_cons.mp hb with rfl | hb
        · rw [hpb] at hpa
          exact absurd rfl hpa
        · exact ih hl hf hb hpb

theorem colorsExt_refl (d : List (String × String)) : ColorsExt d d :=
  fun _ => ⟨fun _ h => h, Or.inl rfl⟩

theorem colorsExt_trans {a b c : List (String × String)}
    (h1 : ColorsExt a b) (h2 : ColorsExt b c) : ColorsExt a c := by
  intro k
  rcases h1 k with ⟨p1, q1⟩
  rcases h2 k with ⟨p2, q2⟩
  refine ⟨fun v h => p2 v (p1 v h), ?_⟩
  rcases q2 with q2 | q2
  · rcases q1 with q1 | q1
    · exact Or.inl (q2.trans q1)
    · exact Or.inr (q2.trans q1)
  · exact Or.inr q2

theorem dictLookup_cons (a : String × String) (d : List (String × String)) (k : String) :
    dictLookup (a :: d) k = if a.fst == k then some a.snd else dictLookup d k := by
  by_cases h : (a.fst == k) = true
  · rw [if_pos h]
    have h2 : (fun e : String × String => e.fst == k) a = true := h
    have h3 : List.find? (fun e : String × String => e.fst == k) (a :: d) = some a :=
      List.find?_cons_of_pos _ h2
    unfold dictLookup
    rw [h3]
  · rw [if_neg h]
    have h2 : ¬((fun e : String × String => e.fst == k) a = true) := h
    have h3 : List.find? (fun e : String × String => e.fst == k) (a :: d)
        = List.find? (fun e : String × String => e.fst == k) d :=
      List.find?_cons_of_neg _ h2
    unfold dictLookup
    rw [h3]

theorem dictLookup_append (d e : List (String × String)) (k : String) :
    dictLookup (d ++ e) k =
      match dictLookup d k with
      | some v => some v
      | none => dictLookup e k := by
  induction d with
  | nil => simp [dictLookup]
  | cons a d ih =>
      rw [List.cons_append, dictLookup_cons, dictLookup_cons]
      by_cases h : a.fst == k
      · simp [h]
      · simp [h, ih]

theorem colorsExt_ddGet (d : List (String × String)) (k2 : String) :
    ColorsExt d (ddGet d k2).snd := by
  cases hx : dictLookup d k2 with
  | some v =>
      have hdd : (ddGet d k2).snd = d := by unfold ddGet; rw [hx]
      rw [hdd]
      exact colorsExt_refl d
  | none =>
      have hdd : (ddGet d k2).snd = d ++ [(k2, "FF0000FF")] := by unfold ddGet; rw [hx]
      rw [hdd]
      intro k
      rw [dictLookup_append]
      cases hy : dictLookup d k with
      | some v => exact ⟨(fun w h => h), Or.inl rfl⟩
      | none =>
          refine ⟨(fun w h => by cases h), ?_⟩
          by_cases hk : (k2 == k) = true
          · right
            rw [dictLookup_cons, if_pos hk]
          · left
            rw [dictLookup_cons, if_neg hk]
            rfl

theorem colorsExt_foldl {α : Type} (f : RState → α → RState)
    (h : ∀ s x, ColorsExt s.colors (f s x).colors) :
    ∀ (l : List α) (s : RState), ColorsExt s.colors (l.foldl f s).colors := by
  intro l
  induction l with
  | nil => exact fun s => colorsExt_refl _
  | cons x xs ih =>
      intro s
      exact colorsExt_trans (h s x) (ih (f s x))

theorem render_seg_colorsExt (G : Geo) (page_id : String) (ancestors : List Seg)
    (st : RState) (segment : Seg) :
    ColorsExt st.colors (render_seg G page_id ancestors st segment).fst.colors := by
  cases hsp : segment_poly G page_id segment with
  | mk fst snd =>
      cases fst with
      | some p =>
          simp only [render_seg, hsp, plot_segment]
          exact colorsExt_ddGet _ _
      | none =>
          cases snd with
          | some msg => simp only [render_seg, hsp]; exact colorsExt_refl _
          | none => simp only [render_seg, hsp]; exact colorsExt_refl _

theorem render_word_colorsExt (G : Geo) (page_id : String) (ancestors : List Seg)
    (st : RState) (w : WordT) :
    ColorsExt st.colors (render_word G page_id ancestors st w).colors := by
  unfold render_word
  refine colorsExt_trans (render_seg_colorsExt G page_id ancestors st w.seg) ?_
  exact colorsExt_foldl _ (fun s g => render_seg_colorsExt G page_id _ s g) w.glyphs _

theorem render_line_colorsExt (G : Geo) (page_id : String) (ancestors : List Seg)
    (st : RState) (l : LineT) :
    ColorsExt st.colors (render_line G page_id ancestors st l).colors := by
  unfold render_line
  refine colorsExt_trans (render_seg_colorsExt G page_id ancestors st l.seg) ?_
  exact colorsExt_foldl _ (fun s w => render_word_colorsExt G page_id _ s w) l.words _

theorem render_region_colorsExt (G : Geo) (page_id : String) (ancestors : List Seg)
    (st : RState) (r : Region) :
    ColorsExt st.colors (render_region G page_id ancestors st r).colors := by
  cases r with
  | nonText seg => exact render_seg_colorsExt G page_id ancestors st seg
  | textRegion seg lines =>
      simp only [render_region]
      by_cases hok : (render_seg G page_id ancestors st seg).snd = true
      · rw [if_pos hok]
        refine colorsExt_trans (render_seg_colorsExt G page_id ancestors st seg) ?_
        exact colorsExt_foldl _ (fun s l => render_line_colorsExt G page_id _ s l) lines _
      · rw [if_neg hok]
        exact render_seg_colorsExt G page_id ancestors st seg

theorem render_all_colorsExt (G : Geo) (page_id : String)
    (colorsArg : Option (List (String × String))) (page : PageT) :
    ColorsExt (initColors colorsArg) (render_all G page_id colorsArg page).colors := by
  unfold render_all
  have hps : ∀ (o : Option Seg) (s : RState),
      ColorsExt s.colors (match o with
        | some x => (render_seg G page_id topAnc s x).fst
        | none => s).colors := by
    intro o s
    cases o with
    | none => exact colorsExt_refl _
    | some x => exact render_seg_colorsExt G page_id topAnc s x
  refine colorsExt_trans (hps page.printSpace { colors := initColors colorsArg, ops := [], log := [] }) ?_
  refine colorsExt_trans (hps page.border _) ?_
  exact colorsExt_foldl _ (fun s r => render_region_colorsExt G page_id topAnc s r) page.regions _

theorem find_region_def (G : Geo) (rm : List (Polygon × Seg)) (x y : Int)
    (ig : Option (List RegionKind)) :
    find_region G rm x y ig =
      match rm.find? (fun e => G.contains e.fst x y
          && !(decide (e.snd.cls ∈ resolveIgnore ig))) with
      | some e => some e.snd
      | none => none := rfl

theorem find_map_pair_eq (G : Geo) (x y : Int) (g : List RegionKind) :
    ∀ (l : List Operation),
      (match (l.map (fun o => (o.poly, o.region))).find?
          (fun e => G.contains e.fst x y && !(decide (e.snd.cls ∈ g))) with
        | some e => some e.snd
        | none => none)
      = Option.map (fun o => o.region)
          (l.find? (fun o => G.contains o.poly x y && !(decide (o.region.cls ∈ g)))) := by
  intro l
  induction l with
  | nil => rfl
  | cons a l ih =>
      by_cases h : (G.contains a.poly x y && !(decide (a.region.cls ∈ g))) = true
      · have h1 : (fun e : Polygon × Seg => G.contains e.fst x y && !(decide (e.snd.cls ∈ g)))
            (a.poly, a.region) = true := h
        have h2 : (fun o : Operation => G.contains o.poly x y && !(decide (o.region.cls ∈ g)))
            a = true := h
        have e1 : ((a :: l).map (fun o => (o.poly, o.region))).find?
            (fun e => G.contains e.fst x y && !(decide (e.snd.cls ∈ g))) = some (a.poly, a.region) :=
          List.find?_cons_of_pos _ h1
        have e2 : (a :: l).find?
            (fun o => G.contains o.poly x y && !(decide (o.region.cls ∈ g))) = some a :=
          List.find?_cons_of_pos _ h2
        rw [e1, e2]
        rfl
      · have h1 : ¬((fun e : Polygon × Seg => G.contains e.fst x y && !(decide (e.snd.cls ∈ g)))
            (a.poly, a.region) = true) := h
        have h2 : ¬((fun o : Operation => G.contains o.poly x y && !(decide (o.region.cls ∈ g)))
            a = true) := h
        have e1 : ((a :: l).map (fun o => (o.poly, o.region))).find?
            (fun e => G.contains e.fst x y && !(decide (e.snd.cls ∈ g)))
            = (l.map (fun o => (o.poly, o.region))).find?
                (fun e => G.contains e.fst x y && !(decide (e.snd.cls ∈ g))) := by
          rw [List.map_cons]
          exact List.find?_cons_of_neg _ h1
        have e2 : (a :: l).find? (fun o => G.contains o.poly x y && !(decide (o.region.cls ∈ g)))
            = l.find? (fun o => G.contains o.poly x y && !(decide (o.region.cls ∈ g))) :=
          List.find?_cons_of_neg _ h2
        rw [e1, e2, ih]

theorem find_region_unfold (G : Geo) (ops : List Operation) (x y : Int)
    (ig : Option (List RegionKind)) :
    find_region G (regionMapOf ops) x y ig =
      Option.map (fun o => o.region)
        ((orderedOps ops).find?
          (fun o => G.contains o.poly x y && !(decide (o.region.cls ∈ resolveIgnore ig)))) :=
  find_map_pair_eq G x y (resolveIgnore ig) (orderedOps ops)

/-- C7: find_region never returns a region whose type is in the (resolved)
ignore set; and when every recorded polygon containing the point has an
ignored type — in particular when no recorded polygon contains the point at
all — it returns none. -/
theorem c7_ignore_filtering (G : Geo) (rm : List (Polygon × Seg)) (x y : Int)
    (ig : Option (List RegionKind)) :
    (∀ r, find_region G rm x y ig = some r → r.cls ∉ resolveIgnore ig)
    ∧ ((∀ e, e ∈ rm → G.contains e.fst x y = true → e.snd.cls ∈ resolveIgnore ig) →
        find_region G rm x y ig = none) := by
  constructor
  · intro r hr
    rw [find_region_def] at hr
    cases h : rm.find? (fun e => G.contains e.fst x y
        && !(decide (e.snd.cls ∈ resolveIgnore ig))) with
    | none => rw [h] at hr; cases hr
    | some e =>
        rw [h] at hr
        have hq := List.find?_some h
        simp only [Bool.and_eq_true, Bool.not_eq_true', decide_eq_false_iff_not] at hq
        have hr2 : e.snd = r := by injection hr
        rw [← hr2]
        exact hq.2
  · intro hall
    rw [find_region_def]
    have hnone : rm.find? (fun e => G.contains e.fst x y
        && !(decide (e.snd.cls ∈ resolveIgnore ig))) = none := by
      rw [List.find?_eq_none]
      intro e he
      simp only [Bool.and_eq_true, Bool.not_eq_true', decide_eq_false_iff_not, not_and]
      intro hc hni
      exact hni (hall e he hc)
    rw [hnone]

/-- C7 witness: a map holding only a Border entry containing (5,5); the
default ignore set suppresses it, so the query yields none. -/
theorem c7_witness : find_region intGeo c7Map 5 5 none = none :=
  (c7_ignore_filtering intGeo c7Map 5 5 none).2 (by decide)

/-- C10: passing an empty ignore list behaves exactly like passing none —
the default ignore set of Border and PrintSpace is applied — while any
non-empty list replaces the default. -/
theorem c10_empty_ignore_default (G : Geo) (rm : List (Polygon × Seg)) (x y : Int) :
    find_region G rm x y (some []) = find_region G rm x y none
    ∧ resolveIgnore (some []) = [RegionKind.border, RegionKind.printSpace]
    ∧ ∀ (l : List RegionKind), l ≠ [] → resolveIgnore (some l) = l := by
  refine ⟨rfl, rfl, ?_⟩
  intro l hl
  cases l with
  | nil => exact absurd rfl hl
  | cons a as => rfl

/-- C10 witness: instance of the theorem at a concrete map and list. -/
theorem c10_witness :
    find_region intGeo c7Map 5 5 (some []) = find_region intGeo c7Map 5 5 none
    ∧ resolveIgnore (some [RegionKind.textRegion]) = [RegionKind.textRegion] :=
  ⟨(c10_empty_ignore_default intGeo c7Map 5 5).1,
   (c10_empty_ignore_default intGeo c7Map 5 5).2.2 [RegionKind.textRegion] (by decide)⟩

/-- C4: for every render pass, the region-map order (the paint order of the
operations) is non-increasing in depth; within one depth the entries are
exactly the emitted operations of that depth in emission order; the emitted
operations are a subsequence of the one fixed traversal sequence of the
tree (so the relative order of surviving entries does not depend on which
other regions failed validation); and the region map is the paint-order
projection of the operations. -/
theorem c4_region_map_order (G : Geo) (page_id : String)
    (colorsArg : Option (List (String × String))) (page : PageT) :
    ((orderedOps (render_all G page_id colorsArg page).ops).Pairwise
        (fun a b => b.depth ≤ a.depth))
    ∧ (∀ d, (orderedOps (render_all G page_id colorsArg page).ops).filter
          (fun o => o.depth == d)
        = (render_all G page_id colorsArg page).ops.filter (fun o => o.depth == d))
    ∧ (((render_all G page_id colorsArg page).ops.map opProj).Sublist (traversePage page))
    ∧ regionMapOf (render_all G page_id colorsArg page).ops
        = (orderedOps (render_all G page_id colorsArg page).ops).map
            (fun o => (o.poly, o.region)) :=
  ⟨pairwise_orderedOps _, (fun d => filter_orderedOps _ d),
   render_all_ops G page_id colorsArg page, rfl⟩

/-- C8: the emitted fill color is the first six hex digits (the RGB part)
of the looked-up table color with the fixed alpha 1E appended, the outline
the same RGB with the fixed alpha 96; hence two tables whose looked-up
colors agree on the RGB part — however their stored alpha digits differ —
produce identical fill and outline colors. -/
theorem c8_fixed_alpha (colors : List (String × String)) (ancestors : List Seg)
    (region : Seg) (poly : Polygon) :
    (plot_segment colors ancestors region poly).fst.fill
        = "#" ++ (ddGet colors ((RegionKind.className region.cls).dropRight 4)).fst.take 6 ++ "1E"
    ∧ (plot_segment colors ancestors region poly).fst.outline
        = "#" ++ (ddGet colors ((RegionKind.className region.cls).dropRight 4)).fst.take 6 ++ "96"
    ∧ ∀ (colors2 : List (String × String)),
        (ddGet colors2 ((RegionKind.className region.cls).dropRight 4)).fst.take 6
          = (ddGet colors ((RegionKind.className region.cls).dropRight 4)).fst.take 6 →
        (plot_segment colors2 ancestors region poly).fst.fill
            = (plot_segment colors ancestors region poly).fst.fill
        ∧ (plot_segment colors2 ancestors region poly).fst.outline
            = (plot_segment colors ancestors region poly).fst.outline := by
  refine ⟨rfl, rfl, ?_⟩
  intro colors2 h
  constructor
  · simp only [plot_segment]
    rw [h]
  · simp only [plot_segment]
    rw [h]

/-- C8 witness: two tables whose TextRegion entries differ only in the two
alpha digits yield the same fill and outline. -/
theorem c8_witness :
    (plot_segment [("TextRegion", "0000FF00")] topAnc c8Seg { pts := c8Seg.pts }).fst.fill
        = (plot_segment [("TextRegion", "0000FFFF")] topAnc c8Seg { pts := c8Seg.pts }).fst.fill
    ∧ (plot_segment [("TextRegion", "0000FF00")] topAnc c8Seg { pts := c8Seg.pts }).fst.outline
        = (plot_segment [("TextRegion", "0000FFFF")] topAnc c8Seg { pts := c8Seg.pts }).fst.outline :=
  (c8_fixed_alpha [("TextRegion", "0000FFFF")] topAnc c8Seg { pts := c8Seg.pts }).2.2
    [("TextRegion", "0000FF00")] (by decide)

/-- C6: polygon validation is a total function (no exception escapes): for
every segment it either returns a polygon that passed every check of the
cascade, or returns no polygon and logs the failure reason — covering
construction errors, invalid polygons, empty polygons, negative bounds and
perimeter below 4 — provided the geometry library reports construction
failures and invalidity with non-empty messages. -/
theorem c6_segment_poly_total (G : Geo) (page_id : String) (segment : Seg)
    (hconstr : ∀ e, G.construct segment.pts = Except.error e → e ≠ "")
    (hexplain : ∀ p, G.construct segment.pts = Except.ok p → G.is_valid p = false →
      G.explain_validity p ≠ "") :
    (∃ p, (segment_poly G page_id segment).fst = some p
        ∧ G.construct segment.pts = Except.ok p
        ∧ G.is_valid p = true ∧ G.is_empty p = false
        ∧ 0 ≤ G.boundsMinX p ∧ 0 ≤ G.boundsMinY p ∧ ¬(G.length p < 4))
    ∨ ((segment_poly G page_id segment).fst = none
        ∧ ∃ r, r ≠ "" ∧ (segment_poly G page_id segment).snd
            = some (logMsg page_id segment r)) := by
  cases hc : G.construct segment.pts with
  | error e =>
      right
      have he := hconstr e hc
      have heq : segment_poly G page_id segment = (none, some (logMsg page_id segment e)) := by
        unfold segment_poly
        rw [hc]
        simp [he]
      rw [heq]
      exact ⟨rfl, e, he, rfl⟩
  | ok p =>
      have hok : segment_poly G page_id segment =
          (let reason : String :=
            if G.is_valid p = false then G.explain_validity p
            else if G.is_empty p = true then "is empty"
            else if G.boundsMinX p < 0 ∨ G.boundsMinY p < 0 then "is negative"
            else if G.length p < 4 then "has too few points"
            else ""
          if reason = "" then (some p, none)
          else (none, some (logMsg page_id segment reason))) := by
        unfold segment_poly
        rw [hc]
      by_cases hv : G.is_valid p = false
      · right
        have hex := hexplain p hc hv
        have heq : segment_poly G page_id segment
            = (none, some (logMsg page_id segment (G.explain_validity p))) := by
          rw [hok]
          simp [hv, hex]
        rw [heq]
        exact ⟨rfl, G.explain_validity p, hex, rfl⟩
      · have hv2 : G.is_valid p = true := by
          revert hv
          cases G.is_valid p <;> simp
        by_cases hem : G.is_empty p = true
        · right
          have heq : segment_poly G page_id segment
              = (none, some (logMsg page_id segment "is empty")) := by
            rw [hok]
            simp [hv, hem, (by decide : ("is empty" : String) ≠ "")]
          rw [heq]
          exact ⟨rfl, "is empty", (by decide), rfl⟩
        · have hem2 : G.is_empty p = false := by
            revert hem
            cases G.is_empty p <;> simp
          by_cases hb : G.boundsMinX p < 0 ∨ G.boundsMinY p < 0
          · right
            have heq : segment_poly G page_id segment
                = (none, some (logMsg page_id segment "is negative")) := by
              rw [hok]
              simp [hv, hem, hb, (by decide : ("is negative" : String) ≠ "")]
            rw [heq]
            exact ⟨rfl, "is negative", (by decide), rfl⟩
          · by_cases hl : G.length p < 4
            · right
              have heq : segment_poly G page_id segment
                  = (none, some (logMsg page_id segment "has too few points")) := by
                rw [hok]
                simp [hv, hem, hb, hl, (by decide : ("has too few points" : String) ≠ "")]
              rw [heq]
              exact ⟨rfl, "has too few points", (by decide), rfl⟩
            · left
              have hbx : 0 ≤ G.boundsMinX p := by
                rcases not_or.mp hb with ⟨h1, h2⟩
                exact Int.not_lt.mp h1
              have hby : 0 ≤ G.boundsMinY p := by
                rcases not_or.mp hb with ⟨h1, h2⟩
                exact Int.not_lt.mp h2
              have heq : segment_poly G page_id segment = (some p, none) := by
                rw [hok]
                simp [hv, hem, hb, hl]
              exact ⟨p, by rw [heq], rfl, hv2, hem2, hbx, hby, hl⟩

/-- C6 witness: the theorem applied to the concrete geometry and a segment
with a negative coordinate (rejected as negative, with a log line). -/
theorem c6_witness :
    (∃ p, (segment_poly intGeo "PHYS_0001" c6seg).fst = some p
        ∧ intGeo.construct c6seg.pts = Except.ok p
        ∧ intGeo.is_valid p = true ∧ intGeo.is_empty p = false
        ∧ 0 ≤ intGeo.boundsMinX p ∧ 0 ≤ intGeo.boundsMinY p ∧ ¬(intGeo.length p < 4))
    ∨ ((segment_poly intGeo "PHYS_0001" c6seg).fst = none
        ∧ ∃ r, r ≠ "" ∧ (segment_poly intGeo "PHYS_0001" c6seg).snd
            = some (logMsg "PHYS_0001" c6seg r)) :=
  c6_segment_poly_total intGeo "PHYS_0001" c6seg
    (fun e h => by
      rw [show intGeo.construct c6seg.pts = Except.ok { pts := c6seg.pts } from rfl] at h
      cases h)
    (fun p hp hv => by
      rw [show intGeo.is_valid p = true from rfl] at hv
      cases hv)

/-- C3 counterexample: two nested recorded entries A (TextRegion, depth 3)
and B (TextLine, depth 4) both contain (20,20) and neither type is
ignored, yet find_region returns the region of the still deeper Word entry
C, not B's region. -/
theorem c3_counterexample :
    c3opA ∈ c3ops ∧ c3opB ∈ c3ops
    ∧ c3opA.depth = 3 ∧ c3opB.depth = 3 + 1
    ∧ intGeo.contains c3opA.poly 20 20 = true
    ∧ intGeo.contains c3opB.poly 20 20 = true
    ∧ c3opA.region.cls ∉ resolveIgnore none
    ∧ c3opB.region.cls ∉ resolveIgnore none
    ∧ find_region intGeo (regionMapOf c3ops) 20 20 none = some c3cSeg
    ∧ some c3cSeg ≠ some c3bSeg := by decide

/-- C3 amended: whenever an entry B at depth d+1 contains the point and is
not ignored, find_region returns the region of some non-ignored containing
entry whose depth is at least B's — never an entry at the outer depth d,
such as A; and when A and B are the only non-ignored operations containing
the point, the result is exactly B's region. -/
theorem c3_inner_before_outer (G : Geo) (ops : List Operation) (x y : Int)
    (ig : Option (List RegionKind)) (opA opB : Operation) (d : Nat)
    (hA : opA ∈ ops) (hB : opB ∈ ops)
    (hdA : opA.depth = d) (hdB : opB.depth = d + 1)
    (hcB : G.contains opB.poly x y = true)
    (hiB : opB.region.cls ∉ resolveIgnore ig) :
    (∃ o, o ∈ ops ∧ G.contains o.poly x y = true ∧ o.region.cls ∉ resolveIgnore ig
        ∧ opB.depth ≤ o.depth
        ∧ find_region G (regionMapOf ops) x y ig = some o.region)
    ∧ ((∀ o, o ∈ ops → G.contains o.poly x y = true → o.region.cls ∉ resolveIgnore ig →
          o = opA ∨ o = opB) →
        find_region G (regionMapOf ops) x y ig = some opB.region) := by
  have hpB : (fun o : Operation => G.contains o.poly x y
      && !(decide (o.region.cls ∈ resolveIgnore ig))) opB = true := by
    simp only [Bool.and_eq_true, Bool.not_eq_true', decide_eq_false_iff_not]
    exact ⟨hcB, hiB⟩
  have hBmem : opB ∈ orderedOps ops := mem_orderedOps.mpr hB
  obtain ⟨x0, hx0⟩ := find?_some_of_mem
    (p := fun o : Operation => G.contains o.poly x y
      && !(decide (o.region.cls ∈ resolveIgnore ig))) hBmem hpB
  have hx0p := List.find?_some hx0
  have hx0mem : x0 ∈ orderedOps ops := List.mem_of_find?_eq_some hx0
  have hx0ops : x0 ∈ ops := mem_orderedOps.mp hx0mem
  have hge : opB.depth ≤ x0.depth :=
    find?_depth_ge (pairwise_orderedOps ops) hx0 hBmem hpB
  have hx0c : G.contains x0.poly x y = true ∧ x0.region.cls ∉ resolveIgnore ig := by
    simpa only [Bool.and_eq_true, Bool.not_eq_true', decide_eq_false_iff_not] using hx0p
  have hfr : find_region G (regionMapOf ops) x y ig = some x0.region := by
    rw [find_region_unfold, hx0]
    rfl
  constructor
  · exact ⟨x0, hx0ops, hx0c.1, hx0c.2, hge, hfr⟩
  · intro honly
    rcases honly x0 hx0ops hx0c.1 hx0c.2 with h | h
    · rw [h, hdA] at hge
      rw [hdB] at hge
      omega
    · rw [hfr, h]

/-- C3 witness: in a map whose only non-ignored containing entries are the
nested pair A and B, the query returns B's region. -/
theorem c3_witness :
    find_region intGeo (regionMapOf [c3opA, c3opB]) 20 20 none = some c3bSeg :=
  (c3_inner_before_outer intGeo [c3opA, c3opB] 20 20 none c3opA c3opB 3
      (by decide) (by decide) (by decide) (by decide) (by decide) (by decide)).2
    (by decide)

theorem foldl_renderseg_mem (G : Geo) (page_id : String) (anc2 : List Seg) :
    ∀ (l : List Seg) (s : RState) (o : Operation), o ∈ s.ops →
      o ∈ (l.foldl (fun s g => (render_seg G page_id anc2 s g).fst) s).ops := by
  intro l
  induction l with
  | nil => intro s o h; exact h
  | cons a l ih =>
      intro s o h
      rw [List.foldl_cons]
      apply ih
      obtain ⟨new, hnew, hsub⟩ := render_seg_ops G page_id anc2 s a
      rw [hnew]
      exact List.mem_append_left _ h

theorem glyph_fold_mem (G : Geo) (page_id : String) (anc2 : List Seg) :
    ∀ (gs : List Seg) (s : RState) (g : Seg), g ∈ gs →
      (segment_poly G page_id g).fst.isSome = true →
      ∃ op, op ∈ (gs.foldl (fun s g2 => (render_seg G page_id anc2 s g2).fst) s).ops
        ∧ op.region = g := by
  intro gs
  induction gs with
  | nil => intro s g hg; simp at hg
  | cons a gs ih =>
      intro s g hg hsome
      rw [List.foldl_cons]
      rcases List.mem_cons.mp hg with rfl | hg2
      · obtain ⟨p, hp⟩ := Option.isSome_iff_exists.mp hsome
        have h1 := (@render_seg_success_ops G page_id anc2 s g p hp).1
        refine ⟨(plot_segment s.colors anc2 g p).fst, ?_, rfl⟩
        apply foldl_renderseg_mem G page_id anc2 gs
        rw [h1]
        exact List.mem_append_right _ (List.mem_singleton.mpr rfl)
      · exact ih _ g hg2 hsome

/-- C2 counterexample: the TextRegion polygon fails validation (negative
coordinates) while its TextLine has a valid polygon, yet the render pass
emits no operation at all — the line is neither painted nor recorded in
the region map. -/
theorem c2_counterexample :
    (segment_poly intGeo "PHYS" c2LineSeg).fst.isSome = true
    ∧ (segment_poly intGeo "PHYS" c2BadSeg).fst = none
    ∧ (render_all intGeo "PHYS" none c2Page).ops = []
    ∧ regionMapOf (render_all intGeo "PHYS" none c2Page).ops = [] := by decide

/-- C2 amended: when a text region's own polygon fails validation none of
its descendants are rendered (the walk does not descend); descendants are
only validated independently below a successfully validated container: a
word whose polygon fails still has each of its valid glyphs painted. -/
theorem c2_descend_only_on_success (G : Geo) (page_id : String) (ancestors : List Seg)
    (st : RState) (seg : Seg) (lines : List LineT) (w : WordT) (g : Seg)
    (h1 : (segment_poly G page_id seg).fst = none)
    (h2 : g ∈ w.glyphs)
    (h3 : (segment_poly G page_id g).fst.isSome = true) :
    (render_region G page_id ancestors st (Region.textRegion seg lines)).ops = st.ops
    ∧ ∃ op, op ∈ (render_word G page_id ancestors st w).ops ∧ op.region = g := by
  constructor
  · simp only [render_region]
    have hf := @render_seg_fail_ops G page_id ancestors st seg h1
    rw [if_neg (by rw [hf.2]; exact Bool.false_ne_true)]
    exact hf.1
  · unfold render_word
    exact glyph_fold_mem G page_id (ancestors ++ [w.seg]) w.glyphs _ g h2 h3

/-- C2 amended witness: concrete invalid region with lines, and an invalid
word whose valid glyph is still painted. -/
theorem c2_amended_witness :
    (render_region intGeo "PHYS" topAnc cSt (Region.textRegion c2BadSeg [])).ops = cSt.ops
    ∧ ∃ op, op ∈ (render_word intGeo "PHYS" topAnc cSt c2Word).ops ∧ op.region = c2GlyphSeg :=
  c2_descend_only_on_success intGeo "PHYS" topAnc cSt c2BadSeg [] c2Word c2GlyphSeg
    (by decide) (by decide) (by decide)

/-- C5 counterexample: in the Border/TextRegion/TextLine scenario the pass
emits three operations, but their depths relative to the Page are 1, 1, 2
(Border and TextRegion are siblings under the Page), not 1, 2, 3. -/
theorem c5_counterexample :
    (render_all intGeo "PHYS" none c5Page).ops.map (fun o => o.region.cls)
        = [RegionKind.border, RegionKind.textRegion, RegionKind.textLine]
    ∧ (render_all intGeo "PHYS" none c5Page).ops.map (fun o => o.depth - pageDepth)
        = [1, 1, 2]
    ∧ ([1, 1, 2] : List Nat) ≠ [1, 2, 3] := by decide

/-- C5 amended: the scenario yields exactly three operations at depths
1, 1, 2 relative to the Page; the layer keys are the two depths in
descending order, so the depth-(Page+1) layer — the one holding the Border
(and the TextRegion) — is composited last, after the TextLine layer. -/
theorem c5_scenario_depths :
    (render_all intGeo "PHYS" none c5Page).ops.length = 3
    ∧ (render_all intGeo "PHYS" none c5Page).ops.map (fun o => o.depth - pageDepth)
        = [1, 1, 2]
    ∧ depthKeys (render_all intGeo "PHYS" none c5Page).ops = [pageDepth + 2, pageDepth + 1]
    ∧ (((render_all intGeo "PHYS" none c5Page).ops.filter
          (fun o => o.depth == pageDepth + 1)).map (fun o => o.region.cls))
        = [RegionKind.border, RegionKind.textRegion]
    ∧ (orderedOps (render_all intGeo "PHYS" none c5Page).ops).map (fun o => o.region.cls)
        = [RegionKind.textLine, RegionKind.border, RegionKind.textRegion] := by decide

/-- C1: with a table registering both "TextRegion" and
"TextRegion:paragraph" (with different RGB parts), rendering a TextRegion
whose subtype is paragraph paints with the RGB of the "TextRegion" entry:
the qualified key is registered but never consulted. -/
theorem c1_subtype_never_consulted :
    c1Seg.subtype = some "paragraph"
    ∧ dictLookup c1Table "TextRegion:paragraph" = some "ABCDEFFF"
    ∧ (render_all intGeo "PHYS" (some c1Table) c1Page).ops.map (fun o => o.fill)
        = ["#0000FF1E"]
    ∧ ("#0000FF1E" : String) ≠ "#" ++ "ABCDEFFF".take 6 ++ "1E" := by decide

/-- C9 counterexample: rendering a page holding an ImageRegion with a
custom table lacking an ImageRegion entry grows the table: the defaultdict
lookup inserts ("ImageRegion", fallback), so the entry set after the pass
differs from the one before. -/
theorem c9_counterexample :
    initColors (some c9Table) = c9Table
    ∧ (render_all intGeo "PHYS" (some c9Table) c9Page).colors
        = [("Border", "FFFFFFFF"), ("ImageRegion", "FF0000FF")]
    ∧ (render_all intGeo "PHYS" (some c9Table) c9Page).colors ≠ c9Table := by decide

/-- C9 amended: a render pass preserves every binding the active table had
before the pass, and any key whose binding changed — necessarily one that
was absent — afterwards maps to the fallback color FF0000FF. -/
theorem c9_table_grows_only_with_fallback (G : Geo) (page_id : String)
    (colorsArg : Option (List (String × String))) (page : PageT) :
    (∀ k v, dictLookup (initColors colorsArg) k = some v →
        dictLookup (render_all G page_id colorsArg page).colors k = some v)
    ∧ (∀ k, dictLookup (render_all G page_id colorsArg page).colors k
          = dictLookup (initColors colorsArg) k
        ∨ dictLookup (render_all G page_id colorsArg page).colors k = some "FF0000FF") := by
  have h := render_all_colorsExt G page_id colorsArg page
  exact ⟨(fun k v hv => ((h k).1) v hv), (fun k => (h k).2)⟩

/-- C9 amended witness: the Border binding survives the pass that inserted
the ImageRegion fallback binding. -/
theorem c9_amended_witness :
    dictLookup (render_all intGeo "PHYS" (some c9Table) c9Page).colors "Border"
      = some "FFFFFFFF" :=
  (c9_table_grows_only_with_fallback intGeo "PHYS" (some c9Table) c9Page).1
    "Border" "FFFFFFFF" (by decide)
